import Mathlib

/-!
A shallow embedding of the attribute and schema layer of the go-libsecret
binding: attribute containers (a GHashTable of string keys and values),
schema descriptors, schema validation, attribute building and value
coercion, the boolean and integer normalization helpers, and the local
guard of the password-store entry point.

Go maps and GHashTables enumerate their entries in an unspecified order,
so a container is embedded as a list of key-value pairs in one possible
iteration order; universally quantified statements over containers range
over every such order.
-/

/-- Attribute type enumeration, mapped from the C SecretSchemaAttributeType
enum: STRING, INTEGER, BOOLEAN, plus a catch-all for any other underlying
integer value of the C enum. -/
inductive SchemaAttributeType where
  | string
  | integer
  | boolean
  | unknown (n : Int)
deriving DecidableEq, Repr

/-- The error values the embedded functions can return; each constructor
corresponds to one fmt.Errorf site of the source. -/
inductive GoError where
  /-- "attributes is nil" (from set / Clone on a released container). -/
  | attributesNil
  /-- "attribute key cannot be empty" (from set and AttributesFromMap). -/
  | emptyKey
  /-- "attributes map cannot be empty" (from AttributesFromMap). -/
  | emptyMap
  /-- "failed to set attribute %q: %w" (BuildAttributes wrapping set). -/
  | setFailed (k : String)
  /-- "at least one key-value pair is required" (BuildAttributes). -/
  | pairRequired
  /-- "arguments must be pairs of key-value: got %d arguments", with the
  length of the original argument list. -/
  | oddArgs (n : Nat)
  /-- "argument %d must be a string key". -/
  | keyNotString (i : Nat)
  /-- "missing value for key %q". -/
  | missingValue (k : String)
  /-- "unsupported type %T for value of key %q". -/
  | unsupportedType (k : String)
  /-- "attribute %q has invalid value %q for type %s". -/
  | invalidValue (k v : String) (t : SchemaAttributeType)
  /-- "attribute %q is not defined in schema". -/
  | undeclared (k : String)
  /-- "required attribute %q is missing". -/
  | missingRequired (k : String)
  /-- "schema cannot be nil". -/
  | schemaNil
  /-- "attributes cannot be nil". -/
  | attrsNil
  /-- "invalid boolean value: %q". -/
  | invalidBooleanLiteral (s : String)
  /-- "cannot convert type %T to boolean". -/
  | cannotConvertBoolean
  /-- "integer value cannot be empty". -/
  | emptyIntegerLiteral
  /-- "invalid integer value: %q". -/
  | invalidIntegerLiteral (s : String)
  /-- "cannot convert type %T to integer". -/
  | cannotConvertInteger
  /-- "label cannot be empty". -/
  | labelEmpty
  /-- "password cannot be empty". -/
  | passwordEmpty
deriving DecidableEq, Repr

/-- Equality of embedded results is decidable, so that concrete runs of the
embedded functions can be checked by evaluation. -/
instance {ε α : Type} [DecidableEq ε] [DecidableEq α] : DecidableEq (Except ε α) := fun x y =>
  match x, y with
  | .ok a, .ok b =>
      if h : a = b then isTrue (by rw [h]) else isFalse (fun hh => h (Except.ok.inj hh))
  | .error a, .error b =>
      if h : a = b then isTrue (by rw [h]) else isFalse (fun hh => h (Except.error.inj hh))
  | .ok _, .error _ => isFalse (fun hh => Except.noConfusion hh)
  | .error _, .ok _ => isFalse (fun hh => Except.noConfusion hh)

/-- The contents of a GHashTable with string keys and string values, as a
list of key-value pairs in one possible iteration order. -/
abbrev Table := List (String × String)

/-- g_hash_table_contains. -/
def tcontains (t : Table) (k : String) : Bool :=
  t.any (fun p => p.1 == k)

/-- g_hash_table_lookup: none models a NULL result. -/
def tlookup (t : Table) (k : String) : Option String :=
  (t.find? (fun p => p.1 == k)).map (fun p => p.2)

/-- g_hash_table_insert: replace the value of an existing key in place,
otherwise add the pair. -/
def tinsert (t : Table) (k v : String) : Table :=
  if tcontains t k then t.map (fun p => if p.1 == k then (k, v) else p)
  else t ++ [(k, v)]

/-- g_hash_table_remove. -/
def tremove (t : Table) (k : String) : Table :=
  t.filter (fun p => !(p.1 == k))

/-- The key list of a table, in iteration order. -/
def tkeys (t : Table) : List String :=
  t.map (fun p => p.1)

/-- The invariant a real GHashTable maintains: keys are unique. -/
def wfTable (t : Table) : Prop :=
  (tkeys t).Nodup

/-- The cAttributes field of an Attributes handle: none models a released
container (cAttributes == nil), some t a live table with contents t. -/
abbrev Attributes := Option Table

namespace Attributes

/-- (a *Attributes) set(key, value string) error. -/
def set (a : Attributes) (key value : String) : Except GoError Attributes :=
  match a with
  | none => .error .attributesNil
  | some t =>
      if key = "" then .error .emptyKey
      else .ok (some (tinsert t key value))

/-- (a *Attributes) Set(key, value string) error delegates to set. -/
def Set (a : Attributes) (key value : String) : Except GoError Attributes :=
  a.set key value

/-- (a *Attributes) Get(key string) string: empty string for a released
container or an absent key. -/
def Get (a : Attributes) (key : String) : String :=
  match a with
  | none => ""
  | some t => (tlookup t key).getD ""

/-- (a *Attributes) Has(key string) bool. -/
def Has (a : Attributes) (key : String) : Bool :=
  match a with
  | none => false
  | some t => tcontains t key

/-- (a *Attributes) Delete(key string) bool, paired with the container
after the call. -/
def Delete (a : Attributes) (key : String) : Bool × Attributes :=
  match a with
  | none => (false, none)
  | some t => (tcontains t key, some (tremove t key))

/-- (a *Attributes) Keys() []string: none models the nil slice returned
for a released container. -/
def Keys (a : Attributes) : Option (List String) :=
  match a with
  | none => none
  | some t => some (tkeys t)

/-- (a *Attributes) Len() int. -/
def Len (a : Attributes) : Nat :=
  match a with
  | none => 0
  | some t => t.length

/-- (a *Attributes) IsEmpty() bool. -/
def IsEmpty (a : Attributes) : Bool :=
  a.Len == 0

/-- (a *Attributes) ToMap() map[string]string: none models the nil map
returned for a released container. -/
def ToMap (a : Attributes) : Option Table :=
  match a with
  | none => none
  | some t => some t

/-- Ranging over a.ToMap(): ranging over a nil Go map performs zero
iterations. -/
def ToMapList (a : Attributes) : Table :=
  (a.ToMap).getD []

/-- (a *Attributes) Equals(other *Attributes) bool, for two live handles:
equal lengths, then every key of a must exist in other with an equal
value. -/
def Equals (a other : Attributes) : Bool :=
  if a.Len ≠ other.Len then false
  else ((a.Keys).getD []).all (fun k => other.Has k && (a.Get k == other.Get k))

end Attributes

/-- The declared attributes of a schema, name to type, in one possible
iteration order of Schema.Attributes(). -/
abbrev SchemaAttrs := List (String × SchemaAttributeType)

/-- Looking a key up in the schema attribute map. -/
def schemaLookup (s : SchemaAttrs) (k : String) : Option SchemaAttributeType :=
  (s.find? (fun p => p.1 == k)).map (fun p => p.2)

/-- The cSchema field of a Schema handle: none models a released schema. -/
abbrev Schema := Option SchemaAttrs

/-- validateAttributeValue: STRING accepts every string; INTEGER rejects ""
and "-" and then requires every rune to be a decimal digit or a '-' (the
position of the '-' is not constrained by the code); BOOLEAN accepts exactly
"true" and "false"; any other declared type accepts nothing. -/
def validateAttributeValue (value : String) (attrType : SchemaAttributeType) : Bool :=
  match attrType with
  | .string => true
  | .integer =>
      if value = "" ∨ value = "-" then false
      else value.toList.all (fun r => (!(decide (r < '0') || decide ('9' < r))) || r == '-')
  | .boolean => value == "true" || value == "false"
  | .unknown _ => false

/-- The first loop of validateAgainstSchema, over the container entries in
map iteration order: a declared key with a non-conforming value fails with
invalidValue, an undeclared key fails with undeclared. -/
def validatePass1 (sAttrs : SchemaAttrs) : Table → Except GoError Unit
  | [] => .ok ()
  | (key, value) :: rest =>
      match schemaLookup sAttrs key with
      | some ty =>
          if validateAttributeValue value ty then validatePass1 sAttrs rest
          else .error (.invalidValue key value ty)
      | none => .error (.undeclared key)

/-- The second loop of validateAgainstSchema: every declared schema key must
be present in the container. -/
def validatePass2 (a : Attributes) : SchemaAttrs → Except GoError Unit
  | [] => .ok ()
  | (schemaKey, _) :: rest =>
      if a.Has schemaKey then validatePass2 a rest
      else .error (.missingRequired schemaKey)

/-- (a *Attributes) validateAgainstSchema(schema *Schema) error: a nil or
released schema validates trivially; otherwise the entry loop runs first and
the missing-key loop runs only if it succeeded. -/
def validateAgainstSchema (a : Attributes) (schema : Option Schema) : Except GoError Unit :=
  match schema with
  | none => .ok ()
  | some none => .ok ()
  | some (some sAttrs) =>
      match validatePass1 sAttrs (a.ToMapList) with
      | .error e => .error e
      | .ok () => validatePass2 a sAttrs

/-- ValidateAttributesAgainstSchema(schema, attrs): nil checks, then the
method above. -/
def ValidateAttributesAgainstSchema (schema : Option Schema) (attrs : Option Attributes) :
    Except GoError Unit :=
  match schema with
  | none => .error .schemaNil
  | some s =>
      match attrs with
      | none => .error .attrsNil
      | some a => validateAgainstSchema a (some s)

/-- Widths of the Go signed integer types; i is the default-width int, the
type an untyped integer constant takes. -/
inductive SIntW where
  | i
  | i8
  | i16
  | i32
  | i64
deriving DecidableEq, Repr

/-- Widths of the Go unsigned integer types. -/
inductive UIntW where
  | u
  | u8
  | u16
  | u32
  | u64
deriving DecidableEq, Repr

/-- A loosely typed Go argument value, tagged by dynamic type: a string, a
signed or unsigned integer of some width, a boolean, the untyped nil, or a
value of any other (unsupported) dynamic type. -/
inductive GoValue where
  | str (s : String)
  | sint (w : SIntW) (n : Int)
  | uint (w : UIntW) (n : Nat)
  | bool (b : Bool)
  | goNil
  | other
deriving DecidableEq, Repr

/-- NormalizeBooleanAttribute. In the multi-type integer cases of the Go
type switch the case variable keeps the interface type, so the comparison
of the value against the untyped constant 0 boxes that constant at its
default type int: the comparison holds only when the dynamic type is
exactly the default-width int and the value is zero, and it never holds
for an unsigned dynamic type. -/
def NormalizeBooleanAttribute : GoValue → Except GoError String
  | .str v =>
      if v = "true" ∨ v = "TRUE" ∨ v = "True" ∨ v = "1" then .ok "true"
      else if v = "false" ∨ v = "FALSE" ∨ v = "False" ∨ v = "0" then .ok "false"
      else .error (.invalidBooleanLiteral v)
  | .bool b => if b then .ok "true" else .ok "false"
  | .sint w n => if w = SIntW.i ∧ n = 0 then .ok "false" else .ok "true"
  | .uint _ _ => .ok "true"
  | .goNil => .error .cannotConvertBoolean
  | .other => .error .cannotConvertBoolean

/-- Models fmt.Sscanf(v, "%d", new(int)) succeeding: the %d verb skips
leading blank space, then reads an optional sign followed by at least one
decimal digit; input remaining after the number is not an error for
Sscanf. -/
def sscanfDecAccepts (v : String) : Bool :=
  match v.toList.dropWhile (fun c => c == ' ' || c == '\t') with
  | [] => false
  | c :: rest =>
      if c == '+' || c == '-' then
        match rest with
        | [] => false
        | d :: _ => d.isDigit
      else c.isDigit

/-- NormalizeIntegerAttribute: a string must be non-empty and accepted by
the Sscanf %d parse; native integers of every width render in base 10. -/
def NormalizeIntegerAttribute : GoValue → Except GoError String
  | .str v =>
      if v = "" then .error .emptyIntegerLiteral
      else if sscanfDecAccepts v then .ok v
      else .error (.invalidIntegerLiteral v)
  | .sint _ n => .ok (toString n)
  | .uint _ n => .ok (toString n)
  | .bool _ => .error .cannotConvertInteger
  | .goNil => .error .cannotConvertInteger
  | .other => .error .cannotConvertInteger

/-- The value-coercion switch inside BuildAttributes: strings pass through,
integers of every width render in base 10, booleans render as "true" or
"false", a nil value renders as the empty string, and every other dynamic
type is an unsupported type. -/
def coerceValue (key : String) (v : GoValue) : Except GoError String :=
  match v with
  | .str s => .ok s
  | .sint _ n => .ok (toString n)
  | .uint _ n => .ok (toString n)
  | .bool b => .ok (if b then "true" else "false")
  | .goNil => .ok ""
  | .other => .error (.unsupportedType key)

/-- The pair loop of BuildAttributes over effectiveArgs, two entries at a
time: a nil in key position breaks out of the loop, the key must be a
string, a key without a following value is an error, and the coerced value
is stored with Set (whose only possible failure here is an empty key). -/
def buildLoop (acc : Table) (i : Nat) : List GoValue → Except GoError Table
  | [] => .ok acc
  | GoValue.goNil :: _ => .ok acc
  | GoValue.str key :: [] => .error (.missingValue key)
  | GoValue.str key :: v :: rest =>
      match coerceValue key v with
      | .error e => .error e
      | .ok s =>
          if key = "" then .error (.setFailed key)
          else buildLoop (tinsert acc key s) (i + 2) rest
  | _ :: _ => .error (.keyNotString i)

/-- One optional trailing nil terminator is stripped before the pairing
check truncates the list at that point. -/
def effectiveArgs (args : List GoValue) : List GoValue :=
  if args.getLast? = some GoValue.goNil then args.dropLast else args

/-- BuildAttributes: zero arguments fail, a single nil terminator yields a
fresh empty container, one trailing terminator is stripped, the remaining
list must have even length, and the pair loop fills the container. -/
def BuildAttributes (args : List GoValue) : Except GoError Table :=
  if args = [] then .error .pairRequired
  else if args = [GoValue.goNil] then .ok []
  else
    let eff := effectiveArgs args
    if eff.length % 2 ≠ 0 then .error (.oddArgs args.length)
    else buildLoop [] 0 eff

/-- The entry loop of AttributesFromMap over the source map's entries in
iteration order: an empty key fails, an empty value is skipped, every other
entry is stored. -/
def fromMapLoop (acc : Table) : List (String × String) → Except GoError Table
  | [] => .ok acc
  | (key, value) :: rest =>
      if key = "" then .error .emptyKey
      else if value = "" then fromMapLoop acc rest
      else fromMapLoop (tinsert acc key value) rest

/-- AttributesFromMap(values map[string]string). -/
def AttributesFromMap (values : List (String × String)) : Except GoError Attributes :=
  if values = [] then .error .emptyMap
  else (fromMapLoop [] values).map (fun t => some t)

/-- A store of allocated hash tables, indexed by handle; none at an index
models a table that was released. Clone must build a new table rather than
alias the one it copies, and the heap makes that distinction visible. -/
structure Heap where
  tables : List (Option Table)

/-- Dereference a handle: the cAttributes view of the table it points to. -/
def Heap.read (h : Heap) (i : Nat) : Attributes :=
  h.tables.getD i none

/-- Overwrite the table a handle points to. -/
def Heap.write (h : Heap) (i : Nat) (t : Table) : Heap :=
  ⟨h.tables.set i (some t)⟩

/-- Attributes.Set through a handle: mutates only the table at that
handle. -/
def heapSet (h : Heap) (i : Nat) (key value : String) : Except GoError Heap :=
  match h.read i with
  | none => .error .attributesNil
  | some t =>
      if key = "" then .error .emptyKey
      else .ok (h.write i (tinsert t key value))

/-- Attributes.Delete through a handle. -/
def heapDelete (h : Heap) (i : Nat) (key : String) : Bool × Heap :=
  match h.read i with
  | none => (false, h)
  | some t => (tcontains t key, h.write i (tremove t key))

/-- The table Clone builds: a fresh table receiving an insert of every
entry of the source table in iteration order. -/
def cloneCopy (t : Table) : Table :=
  t.foldl (fun acc p => tinsert acc p.1 p.2) []

/-- (a *Attributes) Clone(): fails on a released container, otherwise
allocates a new table and copies every entry into it. -/
def heapClone (h : Heap) (i : Nat) : Except GoError (Heap × Nat) :=
  match h.read i with
  | none => .error .attributesNil
  | some t => .ok (⟨h.tables ++ [some (cloneCopy t)]⟩, h.tables.length)

/-- Attributes.Equals through two handles. -/
def heapEquals (h : Heap) (i j : Nat) : Bool :=
  Attributes.Equals (h.read i) (h.read j)

/-- Outcome of the local guard of PasswordStoreSync: either an error
returned before anything is marshalled, or control reaching the external
call secret_password_storev_sync, whose outcome is opaque to this layer. -/
inductive StoreOutcome where
  | err (e : GoError)
  | externalCall
deriving DecidableEq, Repr

/-- PasswordStoreSync(schema, attributes, collection, label, password): the
guard rejects a nil pointer or a released container, an empty label, and an
empty password; everything else proceeds to the external call. -/
def PasswordStoreSync (schema : Option Schema) (attributes : Option Attributes)
    (collection label password : String) : StoreOutcome :=
  match attributes with
  | none => .err .attrsNil
  | some none => .err .attrsNil
  | some (some _) =>
      if label = "" then .err .labelEmpty
      else if password = "" then .err .passwordEmpty
      else .externalCall

/-- Modelled from the spec: the integer encoding the specification declares
for validation, an optional leading '-' followed by one or more decimal
digits and no other characters. -/
def specIntegerEncoding (v : String) : Bool :=
  let core :=
    match v.toList with
    | '-' :: rest => rest
    | l => l
  (!core.isEmpty) && core.all (fun c => c.isDigit)

/-- Modelled from the spec: a base-10 integer literal as the specification
uses the phrase, an optional leading sign followed by one or more decimal
digits and nothing else. -/
def specBase10Integer (v : String) : Bool :=
  let core :=
    match v.toList with
    | '-' :: rest => rest
    | '+' :: rest => rest
    | l => l
  (!core.isEmpty) && core.all (fun c => c.isDigit)

/-- Claim C1: the schema validator's Integer check accepts "1-2" and "--",
although the claimed encoding (optional leading '-', then one or more
digits, nothing else) rejects them: the character loop allows '-' at any
position, contradicting the code's own comment that the negative sign is
allowed at the start. -/
theorem C1_integer_dash_anywhere :
    validateAttributeValue "1-2" SchemaAttributeType.integer = true ∧
    specIntegerEncoding "1-2" = false ∧
    ValidateAttributesAgainstSchema (some (some [("port", SchemaAttributeType.integer)]))
      (some (some [("port", "1-2")])) = Except.ok () ∧
    validateAttributeValue "--" SchemaAttributeType.integer = true ∧
    specIntegerEncoding "--" = false ∧
    validateAttributeValue "-12" SchemaAttributeType.integer = true ∧
    specIntegerEncoding "-12" = true := by
  decide

/-- Claim C2 (counterexample): NormalizeBooleanAttribute rejects "tRue"
although the claim promises "true" in any letter case, and it maps both the
unsigned zero and the zero-valued int8 to "true" although the claim
promises "false" for every zero-valued integer. -/
theorem C2_counterexample :
    NormalizeBooleanAttribute (GoValue.str "tRue") =
      Except.error (GoError.invalidBooleanLiteral "tRue") ∧
    NormalizeBooleanAttribute (GoValue.uint UIntW.u 0) = Except.ok "true" ∧
    NormalizeBooleanAttribute (GoValue.sint SIntW.i8 0) = Except.ok "true" := by
  decide

/-- Claim C3: NormalizeIntegerAttribute accepts "12abc" unchanged although
it contains non-numeric content, because the Sscanf %d parse only consumes
a leading integer and ignores the rest of the string; the documented
behaviours on native integers, "", "abc" and "-42" are as claimed. -/
theorem C3_sscanf_prefix_accepted :
    NormalizeIntegerAttribute (GoValue.str "12abc") = Except.ok "12abc" ∧
    specBase10Integer "12abc" = false ∧
    NormalizeIntegerAttribute (GoValue.str "") = Except.error GoError.emptyIntegerLiteral ∧
    NormalizeIntegerAttribute (GoValue.str "abc") =
      Except.error (GoError.invalidIntegerLiteral "abc") ∧
    NormalizeIntegerAttribute (GoValue.sint SIntW.i 42) = Except.ok "42" ∧
    NormalizeIntegerAttribute (GoValue.sint SIntW.i8 (-42)) = Except.ok "-42" ∧
    NormalizeIntegerAttribute (GoValue.str "-42") = Except.ok "-42" := by
  decide

/-- Claim C4 (counterexample): a container holding a declared key with a
non-conforming value before an undeclared key (in the unspecified map
iteration order) makes validation fail with the invalid-value error, not
the undeclared-attribute error the claim promises. -/
theorem C4_counterexample :
    schemaLookup [("port", SchemaAttributeType.integer)] "extra" = none ∧
    validateAgainstSchema (some [("port", "abc"), ("extra", "v")])
      (some (some [("port", SchemaAttributeType.integer)])) =
      Except.error (GoError.invalidValue "port" "abc" SchemaAttributeType.integer) := by
  decide

/-- Claim C5 (counterexample): a nil in value position is accepted and
coerced to the empty string instead of failing with the unsupported-type
error the claim promises for every value that is not a string, integer or
boolean. -/
theorem C5_counterexample :
    BuildAttributes [GoValue.str "k", GoValue.goNil, GoValue.str "k2", GoValue.str "v2"] =
      Except.ok [("k", ""), ("k2", "v2")] := by
  decide

/-- Claim C5 (amended): the value coercion of BuildAttributes passes
strings through, renders integers of every width and signedness in base-10
signed decimal and booleans as "true"/"false", coerces a nil value to the
empty string, and fails with the unsupported-type error exactly for values
of any other dynamic type. -/
theorem C5_value_coercion (key s : String) (w : SIntW) (w' : UIntW) (n : Int) (m : Nat)
    (b : Bool) :
    coerceValue key (GoValue.str s) = Except.ok s ∧
    coerceValue key (GoValue.sint w n) = Except.ok (toString n) ∧
    coerceValue key (GoValue.uint w' m) = Except.ok (toString m) ∧
    coerceValue key (GoValue.bool b) = Except.ok (if b then "true" else "false") ∧
    coerceValue key GoValue.goNil = Except.ok "" ∧
    coerceValue key GoValue.other = Except.error (GoError.unsupportedType key) ∧
    BuildAttributes [GoValue.str key, GoValue.other] =
      Except.error (GoError.unsupportedType key) := by
  refine ⟨rfl, rfl, rfl, rfl, rfl, rfl, ?_⟩
  simp [BuildAttributes, effectiveArgs, buildLoop, coerceValue]

/-- Claim C6: zero arguments fail with the empty-input error, a single nil
terminator yields an empty container, a trailing terminator is stripped so
that a key-value pair followed by the terminator yields exactly that single
entry, and any argument list that is odd-length after stripping fails with
the odd-argument-count error reporting the original argument count. -/
theorem C6_argument_shape :
    BuildAttributes [] = Except.error GoError.pairRequired ∧
    BuildAttributes [GoValue.goNil] = Except.ok [] ∧
    BuildAttributes [GoValue.str "k", GoValue.str "v", GoValue.goNil] =
      Except.ok [("k", "v")] ∧
    (∀ args : List GoValue, (effectiveArgs args).length % 2 = 1 →
      BuildAttributes args = Except.error (GoError.oddArgs args.length)) := by
  refine ⟨rfl, rfl, by decide, ?_⟩
  intro args h
  have h0 : args ≠ [] := by
    rintro rfl
    exact absurd h (by decide)
  have h1 : args ≠ [GoValue.goNil] := by
    rintro rfl
    exact absurd h (by decide)
  have h2 : (effectiveArgs args).length % 2 ≠ 0 := by omega
  simp [BuildAttributes, h0, h1, h2]

/-- Witness for C6_argument_shape at the concrete odd-length list
["a", "b", "c"]. -/
theorem C6_argument_shape_witness :
    BuildAttributes [GoValue.str "a", GoValue.str "b", GoValue.str "c"] =
      Except.error (GoError.oddArgs 3) :=
  C6_argument_shape.2.2.2 [GoValue.str "a", GoValue.str "b", GoValue.str "c"] (by decide)

/-- Claim C9 (counterexample): an empty but still allocated attribute
container passes the guard of PasswordStoreSync and control reaches the
external secret-service call, although the claim promises an error without
invoking the external collaborator. -/
theorem C9_counterexample :
    Attributes.IsEmpty (some ([] : Table)) = true ∧
    PasswordStoreSync (some (some [("username", SchemaAttributeType.string)]))
      (some (some [])) "default" "Label" "pw" = StoreOutcome.externalCall := by
  decide

/-- Claim C9 (amended): the guard of PasswordStoreSync returns an error
without reaching the external call exactly when the attribute container is
a nil pointer or released, the label is empty, or the password is empty;
an empty but allocated container is not rejected locally, and the guard
path performs no mutation. -/
theorem C9_guard (schema : Option Schema) (attrs : Option Attributes)
    (collection label password : String) :
    ((attrs = none ∨ attrs = some none ∨ label = "" ∨ password = "") →
      ∃ e, PasswordStoreSync schema attrs collection label password = StoreOutcome.err e) ∧
    (attrs ≠ none → attrs ≠ some none → label ≠ "" → password ≠ "" →
      PasswordStoreSync schema attrs collection label password = StoreOutcome.externalCall) := by
  constructor
  · intro hcond
    match attrs with
    | none => exact ⟨.attrsNil, rfl⟩
    | some none => exact ⟨.attrsNil, rfl⟩
    | some (some t) =>
        rcases hcond with h | h | h | h
        · simp at h
        · simp at h
        · exact ⟨.labelEmpty, by simp [PasswordStoreSync, h]⟩
        · by_cases hl : label = ""
          · exact ⟨.labelEmpty, by simp [PasswordStoreSync, hl]⟩
          · exact ⟨.passwordEmpty, by simp [PasswordStoreSync, hl, h]⟩
  · intro h1 h2 h3 h4
    match attrs with
    | none => exact absurd rfl h1
    | some none => exact absurd rfl h2
    | some (some t) => simp [PasswordStoreSync, h3, h4]

/-- Witness for C9_guard: the nil container is rejected by the guard and a
live one-entry container with non-empty label and password reaches the
external call. -/
theorem C9_guard_witness :
    (∃ e, PasswordStoreSync none none "default" "Label" "pw" = StoreOutcome.err e) ∧
    PasswordStoreSync none (some (some [("k", "v")])) "default" "Label" "pw" =
      StoreOutcome.externalCall :=
  ⟨(C9_guard none none "default" "Label" "pw").1 (Or.inl rfl),
   (C9_guard none (some (some [("k", "v")])) "default" "Label" "pw").2
     (by simp) (by simp) (by decide) (by decide)⟩

/-- Claim C10: on a released container every read operation is total and
returns the fixed zero result (empty string, false, zero, true, the nil
slice and the nil map), and the mutating set operation reports the
attributes-is-nil error. -/
theorem C10_released_container_reads (key value : String) :
    Attributes.Get (none : Attributes) key = "" ∧
    Attributes.Has (none : Attributes) key = false ∧
    Attributes.Delete (none : Attributes) key = (false, none) ∧
    Attributes.Len (none : Attributes) = 0 ∧
    Attributes.IsEmpty (none : Attributes) = true ∧
    Attributes.Keys (none : Attributes) = none ∧
    Attributes.ToMap (none : Attributes) = none ∧
    Attributes.set (none : Attributes) key value = Except.error GoError.attributesNil ∧
    Attributes.Set (none : Attributes) key value = Except.error GoError.attributesNil := by
  exact ⟨rfl, rfl, rfl, rfl, rfl, rfl, rfl, rfl, rfl⟩

/-- Claim C2 (amended): NormalizeBooleanAttribute returns "true" exactly for
the strings "true", "TRUE", "True" and "1", the native true, every signed
integer other than the zero-valued default-width int, and every unsigned
integer including zero; it returns "false" exactly for the strings "false",
"FALSE", "False" and "0", the native false, and the zero-valued
default-width int; every other input fails; and it is idempotent on its own
outputs. -/
theorem C2_normalize_boolean (v : GoValue) :
    (NormalizeBooleanAttribute v = Except.ok "true" ↔
      (v = GoValue.str "true" ∨ v = GoValue.str "TRUE" ∨ v = GoValue.str "True" ∨
       v = GoValue.str "1" ∨ v = GoValue.bool true ∨
       (∃ w n, v = GoValue.sint w n ∧ ¬(w = SIntW.i ∧ n = 0)) ∨
       (∃ w n, v = GoValue.uint w n))) ∧
    (NormalizeBooleanAttribute v = Except.ok "false" ↔
      (v = GoValue.str "false" ∨ v = GoValue.str "FALSE" ∨ v = GoValue.str "False" ∨
       v = GoValue.str "0" ∨ v = GoValue.bool false ∨ v = GoValue.sint SIntW.i 0)) ∧
    (∀ s, NormalizeBooleanAttribute v = Except.ok s →
      NormalizeBooleanAttribute (GoValue.str s) = Except.ok s) := by
  cases v with
  | str s =>
      by_cases h1 : s = "true" ∨ s = "TRUE" ∨ s = "True" ∨ s = "1"
      · rcases h1 with rfl | rfl | rfl | rfl <;>
          refine ⟨by simp [NormalizeBooleanAttribute], by simp [NormalizeBooleanAttribute], ?_⟩ <;>
          · intro t ht
            simp [NormalizeBooleanAttribute] at ht
            subst ht
            simp [NormalizeBooleanAttribute]
      · by_cases h2 : s = "false" ∨ s = "FALSE" ∨ s = "False" ∨ s = "0"
        · rcases h2 with rfl | rfl | rfl | rfl <;>
            refine ⟨by simp [NormalizeBooleanAttribute, h1], by simp [NormalizeBooleanAttribute, h1], ?_⟩ <;>
            · intro t ht
              simp [NormalizeBooleanAttribute, h1] at ht
              subst ht
              simp [NormalizeBooleanAttribute]
        · have hres : NormalizeBooleanAttribute (GoValue.str s) =
              Except.error (GoError.invalidBooleanLiteral s) := by
            simp only [NormalizeBooleanAttribute]
            rw [if_neg h1, if_neg h2]
          refine ⟨?_, ?_, ?_⟩
          · rw [hres]
            constructor
            · intro hh
              exact Except.noConfusion hh
            · rintro (hh | hh | hh | hh | hh | ⟨w, n, hh, _⟩ | ⟨w, n, hh⟩)
              · exact absurd (Or.inl (GoValue.str.inj hh)) h1
              · exact absurd (Or.inr (Or.inl (GoValue.str.inj hh))) h1
              · exact absurd (Or.inr (Or.inr (Or.inl (GoValue.str.inj hh)))) h1
              · exact absurd (Or.inr (Or.inr (Or.inr (GoValue.str.inj hh)))) h1
              · exact GoValue.noConfusion hh
              · exact GoValue.noConfusion hh
              · exact GoValue.noConfusion hh
          · rw [hres]
            constructor
            · intro hh
              exact Except.noConfusion hh
            · rintro (hh | hh | hh | hh | hh | hh)
              · exact absurd (Or.inl (GoValue.str.inj hh)) h2
              · exact absurd (Or.inr (Or.inl (GoValue.str.inj hh))) h2
              · exact absurd (Or.inr (Or.inr (Or.inl (GoValue.str.inj hh)))) h2
              · exact absurd (Or.inr (Or.inr (Or.inr (GoValue.str.inj hh)))) h2
              · exact GoValue.noConfusion hh
              · exact GoValue.noConfusion hh
          · intro t ht
            rw [hres] at ht
            exact Except.noConfusion ht
  | sint w n =>
      by_cases h : w = SIntW.i ∧ n = 0
      · obtain ⟨rfl, rfl⟩ := h
        refine ⟨by simp [NormalizeBooleanAttribute], by simp [NormalizeBooleanAttribute], ?_⟩
        intro t ht
        simp [NormalizeBooleanAttribute] at ht
        subst ht
        simp [NormalizeBooleanAttribute]
      · have hres : NormalizeBooleanAttribute (GoValue.sint w n) = Except.ok "true" := by
          simp only [NormalizeBooleanAttribute]
          rw [if_neg h]
        refine ⟨?_, ?_, ?_⟩
        · rw [hres]
          constructor
          · intro _
            exact Or.inr (Or.inr (Or.inr (Or.inr (Or.inr (Or.inl ⟨w, n, rfl, h⟩)))))
          · intro _
            rfl
        · rw [hres]
          constructor
          · intro hh
            simp at hh
          · rintro (hh | hh | hh | hh | hh | hh)
            · exact GoValue.noConfusion hh
            · exact GoValue.noConfusion hh
            · exact GoValue.noConfusion hh
            · exact GoValue.noConfusion hh
            · exact GoValue.noConfusion hh
            · obtain ⟨hw, hn⟩ := GoValue.sint.inj hh
              exact absurd ⟨hw, hn⟩ h
        · intro t ht
          rw [hres] at ht
          have hts : "true" = t := Except.ok.inj ht
          subst hts
          simp [NormalizeBooleanAttribute]
  | uint w n =>
      refine ⟨?_, ?_, ?_⟩
      · constructor
        · intro _
          exact Or.inr (Or.inr (Or.inr (Or.inr (Or.inr (Or.inr ⟨w, n, rfl⟩)))))
        · intro _
          rfl
      · constructor
        · intro hh
          simp [NormalizeBooleanAttribute] at hh
        · rintro (hh | hh | hh | hh | hh | hh) <;> exact GoValue.noConfusion hh
      · intro t ht
        have hts : "true" = t := Except.ok.inj ht
        subst hts
        simp [NormalizeBooleanAttribute]
  | bool b =>
      cases b with
      | true =>
          refine ⟨by simp [NormalizeBooleanAttribute], by simp [NormalizeBooleanAttribute], ?_⟩
          intro t ht
          simp [NormalizeBooleanAttribute] at ht
          subst ht
          simp [NormalizeBooleanAttribute]
      | false =>
          refine ⟨by simp [NormalizeBooleanAttribute], by simp [NormalizeBooleanAttribute], ?_⟩
          intro t ht
          simp [NormalizeBooleanAttribute] at ht
          subst ht
          simp [NormalizeBooleanAttribute]
  | goNil =>
      refine ⟨by simp [NormalizeBooleanAttribute], by simp [NormalizeBooleanAttribute], ?_⟩
      intro t ht
      simp [NormalizeBooleanAttribute] at ht
  | other =>
      refine ⟨by simp [NormalizeBooleanAttribute], by simp [NormalizeBooleanAttribute], ?_⟩
      intro t ht
      simp [NormalizeBooleanAttribute] at ht

/-- Witness for C2_normalize_boolean: idempotence applied at the output of
the unsigned-zero input. -/
theorem C2_normalize_boolean_witness :
    NormalizeBooleanAttribute (GoValue.str "true") = Except.ok "true" :=
  (C2_normalize_boolean (GoValue.uint UIntW.u 0)).2.2 "true" rfl

/-- If some entry of the table bears an undeclared key, the first validation
pass fails, either at a declared key whose value does not conform or at an
undeclared key; it never succeeds. -/
theorem validatePass1_undeclared (sAttrs : SchemaAttrs) (t : Table)
    (h : ∃ p ∈ t, schemaLookup sAttrs p.1 = none) :
    (∃ k v ty, validatePass1 sAttrs t = Except.error (GoError.invalidValue k v ty) ∧
      (k, v) ∈ t ∧ schemaLookup sAttrs k = some ty ∧ validateAttributeValue v ty = false) ∨
    (∃ k, validatePass1 sAttrs t = Except.error (GoError.undeclared k) ∧
      ∃ v, (k, v) ∈ t ∧ schemaLookup sAttrs k = none) := by
  induction t with
  | nil => simp at h
  | cons hd tl ih =>
      obtain ⟨key, value⟩ := hd
      cases hlk : schemaLookup sAttrs key with
      | some ty =>
          by_cases hv : validateAttributeValue value ty
          · have hrest : ∃ p ∈ tl, schemaLookup sAttrs p.1 = none := by
              rcases h with ⟨p, hp, hnone⟩
              rcases List.mem_cons.mp hp with rfl | hmem
              · rw [hlk] at hnone
                exact Option.noConfusion hnone
              · exact ⟨p, hmem, hnone⟩
            rcases ih hrest with hL | hR
            · left
              obtain ⟨k, v, ty2, heq, hmem, hlk2, hvv⟩ := hL
              refine ⟨k, v, ty2, ?_, List.mem_cons_of_mem _ hmem, hlk2, hvv⟩
              simp [validatePass1, hlk, hv, heq]
            · right
              obtain ⟨k, heq, v, hmem, hlk2⟩ := hR
              refine ⟨k, ?_, v, List.mem_cons_of_mem _ hmem, hlk2⟩
              simp [validatePass1, hlk, hv, heq]
          · left
            refine ⟨key, value, ty, ?_, List.mem_cons_self _ _, hlk, ?_⟩
            · simp [validatePass1, hlk, hv]
            · simpa using hv
      | none =>
          right
          refine ⟨key, ?_, value, List.mem_cons_self _ _, hlk⟩
          simp [validatePass1, hlk]

/-- Claim C4 (amended): whenever the container holds at least one key not
declared in the schema, validation fails with exactly one error from the
combined first pass — either the undeclared-attribute error or the
invalid-value error, depending on which offending entry the unspecified map
iteration order reaches first — and never with the missing-attribute error
of the second pass. -/
theorem C4_undeclared_always_fails (sAttrs : SchemaAttrs) (t : Table)
    (h : ∃ p ∈ t, schemaLookup sAttrs p.1 = none) :
    (∃ k v ty, validateAgainstSchema (some t) (some (some sAttrs)) =
        Except.error (GoError.invalidValue k v ty) ∧ (k, v) ∈ t ∧
        schemaLookup sAttrs k = some ty ∧ validateAttributeValue v ty = false) ∨
    (∃ k, validateAgainstSchema (some t) (some (some sAttrs)) =
        Except.error (GoError.undeclared k) ∧
        ∃ v, (k, v) ∈ t ∧ schemaLookup sAttrs k = none) := by
  have hto : Attributes.ToMapList (some t) = t := rfl
  rcases validatePass1_undeclared sAttrs t h with hL | hR
  · left
    obtain ⟨k, v, ty, heq, hrest⟩ := hL
    refine ⟨k, v, ty, ?_, hrest⟩
    simp [validateAgainstSchema, hto, heq]
  · right
    obtain ⟨k, heq, hrest⟩ := hR
    refine ⟨k, ?_, hrest⟩
    simp [validateAgainstSchema, hto, heq]

/-- Witness for C4_undeclared_always_fails: the one-entry container whose
only key is undeclared fails with the undeclared-attribute error. -/
theorem C4_undeclared_always_fails_witness :
    (∃ k v ty, validateAgainstSchema (some [("extra", "v")])
        (some (some [("port", SchemaAttributeType.integer)])) =
        Except.error (GoError.invalidValue k v ty) ∧ (k, v) ∈ [("extra", "v")] ∧
        schemaLookup [("port", SchemaAttributeType.integer)] k = some ty ∧
        validateAttributeValue v ty = false) ∨
    (∃ k, validateAgainstSchema (some [("extra", "v")])
        (some (some [("port", SchemaAttributeType.integer)])) =
        Except.error (GoError.undeclared k) ∧
        ∃ v, (k, v) ∈ [("extra", "v")] ∧
          schemaLookup [("port", SchemaAttributeType.integer)] k = none) :=
  C4_undeclared_always_fails [("port", SchemaAttributeType.integer)] [("extra", "v")]
    ⟨("extra", "v"), by simp, by decide⟩

/-- Inserting a key that is not yet present appends the pair. -/
theorem tinsert_of_not_contains (t : Table) (k v : String) (h : tcontains t k = false) :
    tinsert t k v = t ++ [(k, v)] := by
  simp [tinsert, h]

/-- The entry loop of AttributesFromMap over entries with non-empty,
pairwise distinct keys that do not collide with the accumulator extends the
accumulator with exactly the entries holding non-empty values, in order. -/
theorem fromMapLoop_spec (values : List (String × String)) :
    ∀ acc : Table, (∀ p ∈ values, p.1 ≠ "") → (values.map Prod.fst).Nodup →
      (∀ p ∈ values, tcontains acc p.1 = false) →
      fromMapLoop acc values = Except.ok (acc ++ values.filter (fun p => !(p.2 == ""))) := by
  induction values with
  | nil =>
      intro acc _ _ _
      simp [fromMapLoop]
  | cons hd tl ih =>
      intro acc hkeys hnodup hdisj
      obtain ⟨k, v⟩ := hd
      have hk : k ≠ "" := hkeys (k, v) (List.mem_cons_self _ _)
      have hknotin : k ∉ tl.map Prod.fst := (List.nodup_cons.mp (by simpa using hnodup)).1
      have hkeystl : ∀ p ∈ tl, p.1 ≠ "" := fun p hp => hkeys p (List.mem_cons_of_mem _ hp)
      have hnoduptl : (tl.map Prod.fst).Nodup := (List.nodup_cons.mp (by simpa using hnodup)).2
      by_cases hv : v = ""
      · subst hv
        have hdisjtl : ∀ p ∈ tl, tcontains acc p.1 = false :=
          fun p hp => hdisj p (List.mem_cons_of_mem _ hp)
        simp only [fromMapLoop, if_neg hk, if_pos rfl]
        rw [ih acc hkeystl hnoduptl hdisjtl]
        simp
      · have hdisjtl : ∀ p ∈ tl, tcontains (acc ++ [(k, v)]) p.1 = false := by
          intro p hp
          have hpk : p.1 ≠ k := by
            intro hkp
            exact hknotin (hkp ▸ List.mem_map_of_mem Prod.fst hp)
          have h1 : tcontains acc p.1 = false := hdisj p (List.mem_cons_of_mem _ hp)
          simp [tcontains] at h1 ⊢
          exact ⟨h1, fun hkp => absurd hkp.symm hpk⟩
        simp only [fromMapLoop, if_neg hk, if_neg hv]
        rw [tinsert_of_not_contains acc k v (hdisj (k, v) (List.mem_cons_self _ _))]
        rw [ih (acc ++ [(k, v)]) hkeystl hnoduptl hdisjtl]
        simp [hv]

/-- If some entry of the source map bears an empty key, the entry loop
reaches it and fails with the empty-key error. -/
theorem fromMapLoop_empty_key (values : List (String × String)) :
    ∀ acc : Table, (∃ p ∈ values, p.1 = "") →
      fromMapLoop acc values = Except.error GoError.emptyKey := by
  induction values with
  | nil =>
      intro acc h
      simp at h
  | cons hd tl ih =>
      intro acc h
      obtain ⟨k, v⟩ := hd
      by_cases hk : k = ""
      · simp [fromMapLoop, hk]
      · have htl : ∃ p ∈ tl, p.1 = "" := by
          rcases h with ⟨p, hp, hpk⟩
          rcases List.mem_cons.mp hp with rfl | hmem
          · exact absurd hpk hk
          · exact ⟨p, hmem, hpk⟩
        by_cases hv : v = ""
        · simp [fromMapLoop, hk, hv, ih acc htl]
        · simp [fromMapLoop, hk, hv, ih (tinsert acc k v) htl]

/-- Claim C7: for a non-empty source map all of whose keys are non-empty,
AttributesFromMap succeeds and the resulting container holds exactly the
entries of the map whose values are non-empty (so ToMap of the result is
the source map with empty-valued entries removed); an empty map fails with
the empty-input error and a map containing an empty key fails with the
invalid-key error. -/
theorem C7_from_map_round_trip :
    (∀ values : List (String × String), values ≠ [] →
      (∀ p ∈ values, p.1 ≠ "") → (values.map Prod.fst).Nodup →
      AttributesFromMap values =
        Except.ok (some (values.filter (fun p => !(p.2 == "")))) ∧
      Attributes.ToMap (some (values.filter (fun p => !(p.2 == "")))) =
        some (values.filter (fun p => !(p.2 == ""))) ∧
      (∀ k v, (k, v) ∈ values.filter (fun p => !(p.2 == "")) ↔
        ((k, v) ∈ values ∧ v ≠ ""))) ∧
    AttributesFromMap [] = Except.error GoError.emptyMap ∧
    (∀ values : List (String × String), (∃ p ∈ values, p.1 = "") →
      AttributesFromMap values = Except.error GoError.emptyKey) := by
  refine ⟨?_, rfl, ?_⟩
  · intro values hne hkeys hnodup
    refine ⟨?_, rfl, ?_⟩
    · have hloop := fromMapLoop_spec values [] hkeys hnodup (fun p _ => rfl)
      simp only [AttributesFromMap, if_neg hne, hloop]
      rfl
    · intro k v
      constructor
      · intro hmem
        have h1 := List.mem_filter.mp hmem
        refine ⟨h1.1, ?_⟩
        have h2 := h1.2
        simp at h2
        exact h2
      · intro ⟨hmem, hv⟩
        exact List.mem_filter.mpr ⟨hmem, by simpa using hv⟩
  · intro values hempty
    have hne : values ≠ [] := by
      rintro rfl
      simp at hempty
    simp only [AttributesFromMap, if_neg hne, fromMapLoop_empty_key values [] hempty]
    rfl

/-- Witness for C7_from_map_round_trip at the two-entry map where one value
is empty, and at a map with an empty key. -/
theorem C7_from_map_round_trip_witness :
    AttributesFromMap [("a", "1"), ("b", "")] = Except.ok (some [("a", "1")]) ∧
    AttributesFromMap [("", "x")] = Except.error GoError.emptyKey := by
  constructor
  · have h := (C7_from_map_round_trip.1 [("a", "1"), ("b", "")] (by decide) (by decide)
      (by decide)).1
    simpa using h
  · exact C7_from_map_round_trip.2.2 [("", "x")] ⟨("", "x"), by simp, rfl⟩

/-- Folding inserts of pairwise-distinct keys that are fresh for the
accumulator appends the pairs in order. -/
theorem foldl_tinsert_fresh (t : Table) :
    ∀ acc : Table, (∀ p ∈ t, tcontains acc p.1 = false) → (tkeys t).Nodup →
      t.foldl (fun a p => tinsert a p.1 p.2) acc = acc ++ t := by
  induction t with
  | nil =>
      intro acc _ _
      simp
  | cons hd tl ih =>
      intro acc hdisj hnodup
      obtain ⟨k, v⟩ := hd
      have hcons : (k :: tkeys tl).Nodup := by simpa [tkeys] using hnodup
      have hknotin : k ∉ tkeys tl := (List.nodup_cons.mp hcons).1
      have hnoduptl : (tkeys tl).Nodup := (List.nodup_cons.mp hcons).2
      have hdisjtl : ∀ p ∈ tl, tcontains (acc ++ [(k, v)]) p.1 = false := by
        intro p hp
        have hpk : p.1 ≠ k := by
          intro hkp
          exact hknotin (hkp ▸ List.mem_map_of_mem (fun q => q.1) hp)
        have h1 : tcontains acc p.1 = false := hdisj p (List.mem_cons_of_mem _ hp)
        simp [tcontains] at h1 ⊢
        exact ⟨h1, fun hkp => absurd hkp.symm hpk⟩
      simp only [List.foldl_cons]
      rw [tinsert_of_not_contains acc k v (hdisj (k, v) (List.mem_cons_self _ _))]
      rw [ih (acc ++ [(k, v)]) hdisjtl hnoduptl]
      simp

/-- On a well-formed table the copy Clone builds is the table itself. -/
theorem cloneCopy_eq_self (t : Table) (hwf : wfTable t) : cloneCopy t = t := by
  have hfold := foldl_tinsert_fresh t [] (fun p _ => rfl) hwf
  simpa [cloneCopy] using hfold

/-- A key drawn from the key list of a table is contained in it. -/
theorem tcontains_of_mem_tkeys (t : Table) (k : String) (hk : k ∈ tkeys t) :
    tcontains t k = true := by
  simp only [tkeys, List.mem_map] at hk
  obtain ⟨p, hp, hpk⟩ := hk
  simp only [tcontains, List.any_eq_true]
  exact ⟨p, hp, by simp [hpk]⟩

/-- Equals is reflexive on a live container. -/
theorem attributes_equals_self (t : Table) :
    Attributes.Equals (some t) (some t) = true := by
  simp only [Attributes.Equals]
  rw [if_neg (by simp)]
  simp only [Attributes.Keys, Option.getD_some]
  rw [List.all_eq_true]
  intro k hk
  simp [Attributes.Has, Attributes.Get, tcontains_of_mem_tkeys t k hk]

/-- Writing through one handle leaves every other handle unchanged. -/
theorem heapRead_write_ne (h : Heap) (a b : Nat) (t : Table) (hne : a ≠ b) :
    (h.write a t).read b = h.read b := by
  simp [Heap.read, Heap.write, List.getElem?_set_ne hne]

/-- Allocation at the end of the heap leaves existing handles readable. -/
theorem heapRead_append_lt (l : List (Option Table)) (x : Option Table) (i : Nat)
    (hi : i < l.length) : (Heap.mk (l ++ [x])).read i = (Heap.mk l).read i := by
  simp [Heap.read, List.getElem?_append_left hi]

/-- The freshly allocated handle reads the appended table. -/
theorem heapRead_append_len (l : List (Option Table)) (x : Option Table) :
    (Heap.mk (l ++ [x])).read l.length = x := by
  simp [Heap.read, List.getElem?_concat_length]

/-- A handle that reads a live table is in bounds. -/
theorem heapRead_lt (h : Heap) (i : Nat) (t : Table) (hr : h.read i = some t) :
    i < h.tables.length := by
  by_contra hge
  have hnone : h.tables[i]? = none := List.getElem?_eq_none (Nat.le_of_not_lt hge)
  simp [Heap.read, hnone] at hr

/-- Claim C8: Clone on a live well-formed container succeeds with a fresh
handle whose contents equal the original (so Equals holds between them),
and the two handles are fully independent: Set or Delete through either
handle leaves the table read through the other unchanged. -/
theorem C8_clone_independent (h : Heap) (i : Nat) (t : Table)
    (hread : h.read i = some t) (hwf : wfTable t) :
    ∃ h' j, heapClone h i = Except.ok (h', j) ∧ j ≠ i ∧
      h'.read i = some t ∧ h'.read j = some t ∧
      heapEquals h' i j = true ∧
      (∀ key value h2, heapSet h' j key value = Except.ok h2 → h2.read i = some t) ∧
      (∀ key, ((heapDelete h' j key).2).read i = some t) ∧
      (∀ key value h2, heapSet h' i key value = Except.ok h2 → h2.read j = some t) ∧
      (∀ key, ((heapDelete h' i key).2).read j = some t) := by
  have hi : i < h.tables.length := heapRead_lt h i t hread
  have hcc : cloneCopy t = t := cloneCopy_eq_self t hwf
  have hri : (Heap.mk (h.tables ++ [some (cloneCopy t)])).read i = some t := by
    rw [heapRead_append_lt _ _ _ hi]
    exact hread
  have hrj : (Heap.mk (h.tables ++ [some (cloneCopy t)])).read h.tables.length = some t := by
    rw [heapRead_append_len, hcc]
  refine ⟨⟨h.tables ++ [some (cloneCopy t)]⟩, h.tables.length,
    ?_, by omega, hri, hrj, ?_, ?_, ?_, ?_, ?_⟩
  · simp [heapClone, hread]
  · rw [heapEquals, hri, hrj]
    exact attributes_equals_self t
  · intro key value h2 hset
    by_cases hkey : key = ""
    · simp [heapSet, hrj, hkey] at hset
    · simp only [heapSet, hrj, if_neg hkey] at hset
      obtain rfl := Except.ok.inj hset
      rw [heapRead_write_ne _ _ _ _ (by omega)]
      exact hri
  · intro key
    simp only [heapDelete, hrj]
    rw [heapRead_write_ne _ _ _ _ (by omega)]
    exact hri
  · intro key value h2 hset
    by_cases hkey : key = ""
    · simp [heapSet, hri, hkey] at hset
    · simp only [heapSet, hri, if_neg hkey] at hset
      obtain rfl := Except.ok.inj hset
      rw [heapRead_write_ne _ _ _ _ (by omega)]
      exact hrj
  · intro key
    simp only [heapDelete, hri]
    rw [heapRead_write_ne _ _ _ _ (by omega)]
    exact hrj

/-- Witness for C8_clone_independent at the one-table heap holding the
single entry ("k", "v"). -/
theorem C8_clone_independent_witness :
    ∃ h' j, heapClone ⟨[some [("k", "v")]]⟩ 0 = Except.ok (h', j) ∧ j ≠ 0 ∧
      h'.read 0 = some [("k", "v")] ∧ h'.read j = some [("k", "v")] ∧
      heapEquals h' 0 j = true ∧
      (∀ key value h2, heapSet h' j key value = Except.ok h2 →
        h2.read 0 = some [("k", "v")]) ∧
      (∀ key, ((heapDelete h' j key).2).read 0 = some [("k", "v")]) ∧
      (∀ key value h2, heapSet h' 0 key value = Except.ok h2 →
        h2.read j = some [("k", "v")]) ∧
      (∀ key, ((heapDelete h' 0 key).2).read j = some [("k", "v")]) :=
  C8_clone_independent ⟨[some [("k", "v")]]⟩ 0 [("k", "v")] rfl
    (by unfold wfTable; decide)

/-- Witness for C5_value_coercion at concrete key and value inputs. -/
theorem C5_value_coercion_witness :
    coerceValue "port" (GoValue.sint SIntW.i8 8080) = Except.ok (toString (8080 : Int)) ∧
    coerceValue "ssl" (GoValue.bool true) = Except.ok (if true then "true" else "false") ∧
    coerceValue "x" GoValue.other = Except.error (GoError.unsupportedType "x") ∧
    BuildAttributes [GoValue.str "x", GoValue.other] =
      Except.error (GoError.unsupportedType "x") :=
  ⟨(C5_value_coercion "port" "s" SIntW.i8 UIntW.u 8080 0 true).2.1,
   (C5_value_coercion "ssl" "s" SIntW.i UIntW.u 0 0 true).2.2.2.1,
   (C5_value_coercion "x" "s" SIntW.i UIntW.u 0 0 true).2.2.2.2.2.1,
   (C5_value_coercion "x" "s" SIntW.i UIntW.u 0 0 true).2.2.2.2.2.2⟩
